import Mathlib

/-!
# go-note: the `user.proto` schema, the example gRPC server and its client

Shallow embedding of `GenerateProtocolBuffers.go`:

* the `user.proto` schema (messages, field types, field numbers, service),
* the Go message structs that `protoc` generates from it, with their nil-safe accessors,
* the two hand-written handlers `CreateUser` and `GetUser` of `server.go`, as written, with
  the scope their identifiers are resolved in,
* the control flow of the server's `main`, as a trace of effects,
* the request literal of the client's `main`.
-/

namespace GoNote

/-! ## The schema of `user.proto` -/

/-- Type of a field in `user.proto`: the two scalar types used, or a named message. -/
inductive FieldType where
  | int32
  | string
  | message (name : String)
deriving DecidableEq, Repr

/-- One field line of a message: `type name = number;`. -/
structure FieldDecl where
  type : FieldType
  name : String
  number : Nat
deriving DecidableEq, Repr

/-- A `message Name { ... }` block. -/
structure MessageDecl where
  name : String
  fields : List FieldDecl
deriving DecidableEq, Repr

/-- One `rpc Name (Input) returns (Output);` line. -/
structure RpcDecl where
  name : String
  input : String
  output : String
deriving DecidableEq, Repr

/-- Block `message User`, lines 23-34. -/
def userDecl : MessageDecl :=
  { name := "User"
    fields :=
      [ { type := .int32, name := "id", number := 1 },
        { type := .string, name := "first_name", number := 2 },
        { type := .string, name := "last_name", number := 3 },
        { type := .string, name := "email", number := 4 },
        { type := .string, name := "password", number := 5 },
        { type := .string, name := "phone", number := 6 },
        { type := .string, name := "status", number := 7 },
        { type := .string, name := "role", number := 8 },
        { type := .string, name := "created_at", number := 9 },
        { type := .string, name := "updated_at", number := 10 } ] }

/-- Block `message CreateUserRequest`, lines 37-42. -/
def createUserRequestDecl : MessageDecl :=
  { name := "CreateUserRequest"
    fields :=
      [ { type := .string, name := "first_name", number := 1 },
        { type := .string, name := "last_name", number := 2 },
        { type := .string, name := "email", number := 3 },
        { type := .string, name := "password", number := 4 } ] }

/-- Block `message CreateUserResponse`, lines 45-47. -/
def createUserResponseDecl : MessageDecl :=
  { name := "CreateUserResponse"
    fields := [ { type := .message "User", name := "user", number := 1 } ] }

/-- Block `message GetUserRequest`, lines 50-52. -/
def getUserRequestDecl : MessageDecl :=
  { name := "GetUserRequest"
    fields := [ { type := .int32, name := "id", number := 1 } ] }

/-- Block `message GetUserResponse`, lines 55-57. -/
def getUserResponseDecl : MessageDecl :=
  { name := "GetUserResponse"
    fields := [ { type := .message "User", name := "user", number := 1 } ] }

/-- All message blocks of the schema, in file order. -/
def schemaMessages : List MessageDecl :=
  [userDecl, createUserRequestDecl, createUserResponseDecl, getUserRequestDecl,
    getUserResponseDecl]

/-- Block `service UserService`, lines 60-63. -/
def userServiceDecl : List RpcDecl :=
  [ { name := "CreateUser", input := "CreateUserRequest", output := "CreateUserResponse" },
    { name := "GetUser", input := "GetUserRequest", output := "GetUserResponse" } ]

/-- Field numbers of a message, in declaration order. -/
def MessageDecl.numbers (m : MessageDecl) : List Nat :=
  m.fields.map (fun d => d.number)

/-- Field declared under `number`, if any. -/
def MessageDecl.fieldAt (m : MessageDecl) (number : Nat) : Option FieldDecl :=
  m.fields.find? (fun d => d.number == number)

/-! ## The generated Go message structs

`protoc --go_out` turns every message into a struct whose fields carry the Go zero value
(`0`, `""`, `nil`) unless set; an `int32` is an integer in `[-2^31, 2^31)`, held here in `Int`;
a message-typed field is a pointer, held here in `Option`. -/

/-- Range of a Go `int32`. -/
def isInt32 (i : Int) : Prop := -2147483648 ≤ i ∧ i < 2147483648

instance (i : Int) : Decidable (isInt32 i) := by
  unfold isInt32; infer_instance

/-- Go struct `user.User`; an omitted field of a composite literal is its zero value. -/
structure User where
  Id : Int := 0
  FirstName : String := ""
  LastName : String := ""
  Email : String := ""
  Password : String := ""
  Phone : String := ""
  Status : String := ""
  Role : String := ""
  CreatedAt : String := ""
  UpdatedAt : String := ""
deriving DecidableEq, Repr

/-- Go struct `user.CreateUserRequest`. -/
structure CreateUserRequest where
  FirstName : String := ""
  LastName : String := ""
  Email : String := ""
  Password : String := ""
deriving DecidableEq, Repr

/-- Go struct `user.CreateUserResponse`; `User` is a `*User`. -/
structure CreateUserResponse where
  User : Option User := none
deriving DecidableEq, Repr

/-- Go struct `user.GetUserRequest`. -/
structure GetUserRequest where
  Id : Int := 0
deriving DecidableEq, Repr

/-- Go struct `user.GetUserResponse`; `User` is a `*User`. -/
structure GetUserResponse where
  User : Option User := none
deriving DecidableEq, Repr

/-- Accessor `(*CreateUserRequest).GetFirstName` of the generated `user.pb.go`: the field,
or `""` on a nil receiver. -/
def CreateUserRequest.GetFirstName (x : Option CreateUserRequest) : String :=
  match x with
  | some r => r.FirstName
  | none => ""

/-- Accessor `(*CreateUserRequest).GetLastName`: the field, or `""` on a nil receiver. -/
def CreateUserRequest.GetLastName (x : Option CreateUserRequest) : String :=
  match x with
  | some r => r.LastName
  | none => ""

/-- Accessor `(*CreateUserRequest).GetEmail`: the field, or `""` on a nil receiver. -/
def CreateUserRequest.GetEmail (x : Option CreateUserRequest) : String :=
  match x with
  | some r => r.Email
  | none => ""

/-- Accessor `(*CreateUserRequest).GetPassword`: the field, or `""` on a nil receiver. -/
def CreateUserRequest.GetPassword (x : Option CreateUserRequest) : String :=
  match x with
  | some r => r.Password
  | none => ""

/-- Accessor `(*GetUserRequest).GetId`: the field, or `0` on a nil receiver. -/
def GetUserRequest.GetId (x : Option GetUserRequest) : Int :=
  match x with
  | some r => r.Id
  | none => 0

/-! ## `server.go` -/

/-- A Go `error` value, by its message; the `nil` error is `none` of `Option GoError`. -/
structure GoError where
  msg : String
deriving DecidableEq, Repr

/-- The `context.Context` argument of a handler: a deadline and a cancellation flag. -/
structure Context where
  deadline : Option Nat := none
  cancelled : Bool := false
deriving DecidableEq, Repr

/-- The receiver `type server struct { user.UnimplementedUserServiceServer }`: no state. -/
structure server where
deriving DecidableEq, Repr

/-! ### Identifiers in a handler body

Both handlers declare a local variable called `user`, the name under which `server.go`
imports the generated package. In Go the scope of a variable declared by `:=` begins at
the end of that statement, so what `user` denotes changes between the two statements of a
handler body; the handlers are embedded with the scope each statement is compiled in. -/

/-- What an identifier denotes at a point of a Go file: an imported package, with the
types it declares, or a variable, with its type. -/
inductive Denotation where
  | package (types : List String)
  | variable (type : String)
deriving DecidableEq, Repr

/-- The identifiers in force at a point of the file, the innermost declaration first. -/
abbrev Scope : Type := List (String × Denotation)

/-- Resolution of the type `q.T` of a composite literal `&q.T{...}`: `q` has to denote a
package and `T` a type that package declares; in any other case the compiler rejects the
literal and there is no value. -/
def Scope.qualifiedType (sc : Scope) (q T : String) : Option Unit :=
  match sc.lookup q with
  | some (.package types) => if T ∈ types then some () else none
  | _ => none

/-- The generated package `user`: one struct type for each message of the schema. -/
def userPackage : Denotation :=
  .package (schemaMessages.map (fun m => m.name))

/-- The scope a handler body starts in: the imports of `server.go`, lines 93-101, under
the receiver `s` and the parameters `ctx` and `req` of the handler; `reqType` is the type
of `req`. Of the other packages only the type named in the handler's signature is listed. -/
def handlerScope (reqType : String) : Scope :=
  [ ("req", .variable reqType),
    ("ctx", .variable "context.Context"),
    ("s", .variable "*server"),
    ("context", .package ["Context"]),
    ("fmt", .package []),
    ("log", .package []),
    ("net", .package []),
    ("grpc", .package []),
    ("user", userPackage) ]

/-- The local `user` of `CreateUser`, the literal of lines 109-119: built from the
request's accessors and fixed values. -/
def server.CreateUser.user (req : Option CreateUserRequest) : User :=
  { Id := 1
    FirstName := CreateUserRequest.GetFirstName req
    LastName := CreateUserRequest.GetLastName req
    Email := CreateUserRequest.GetEmail req
    Password := CreateUserRequest.GetPassword req
    Status := "active"
    Role := "user"
    CreatedAt := "2024-12-01T12:00:00Z"
    UpdatedAt := "2024-12-01T12:00:00Z" }

/-- Handler `(*server).CreateUser`, lines 107-123, as written. The result is `none` when
the body is rejected by the compiler, and then the handler returns nothing at all;
otherwise it is the returned pair of response and error.

* Line 109, `user := &user.User{...}`: the type `user.User` is resolved in the scope the
  body starts in, and the local `user` is declared after the statement.
* Line 120, `return &user.CreateUserResponse{User: user}, nil`: the type
  `user.CreateUserResponse` is resolved in the scope that holds the local `user`. -/
def server.CreateUser (_s : server) (_ctx : Context) (req : Option CreateUserRequest) :
    Option (Option CreateUserResponse × Option GoError) :=
  let scope : Scope := handlerScope "*user.CreateUserRequest"
  match scope.qualifiedType "user" "User" with
  | none => none
  | some _ =>
    let user : User := server.CreateUser.user req
    let scope : Scope := ("user", .variable "*user.User") :: scope
    match scope.qualifiedType "user" "CreateUserResponse" with
    | none => none
    | some _ => some (some { User := some user }, none)

/-- The local `user` of `GetUser`, the literal of lines 127-136: fixed values and the
requested id. -/
def server.GetUser.user (req : Option GetUserRequest) : User :=
  { Id := GetUserRequest.GetId req
    FirstName := "John"
    LastName := "Doe"
    Email := "johndoe@example.com"
    Status := "active"
    Role := "user"
    CreatedAt := "2024-12-01T12:00:00Z"
    UpdatedAt := "2024-12-01T12:00:00Z" }

/-- Handler `(*server).GetUser`, lines 125-138, as written. The result is `none` when the
body is rejected by the compiler, and then the handler returns nothing at all; otherwise
it is the returned pair of response and error.

* Line 127, `user := &user.User{...}`: the type `user.User` is resolved in the scope the
  body starts in, and the local `user` is declared after the statement.
* Line 137, `return &user.GetUserResponse{User: user}, nil`: the type
  `user.GetUserResponse` is resolved in the scope that holds the local `user`. -/
def server.GetUser (_s : server) (_ctx : Context) (req : Option GetUserRequest) :
    Option (Option GetUserResponse × Option GoError) :=
  let scope : Scope := handlerScope "*user.GetUserRequest"
  match scope.qualifiedType "user" "User" with
  | none => none
  | some _ =>
    let user : User := server.GetUser.user req
    let scope : Scope := ("user", .variable "*user.User") :: scope
    match scope.qualifiedType "user" "GetUserResponse" with
    | none => none
    | some _ => some (some { User := some user }, none)

/-- Effects of the server's `main`, in program order. -/
inductive Effect where
  | listen (network address : String)
  | newServer
  | registerUserServiceServer
  | println (line : String)
  | serve
  | fatalf (line : String)
deriving DecidableEq, Repr

/-- How a run of `main` ends: `log.Fatalf` exits the process with status 1, `main` returns
(status 0), or the process stays inside a call that does not return. -/
inductive Ending where
  | exit (status : Nat)
  | returned
  | blocked
deriving DecidableEq, Repr

/-- What the environment answers to the two calls of `main` that can fail:
`net.Listen` gives a listener or an error; `s.Serve` does not return (`none`), or
returns a nil error (`some none`) or an error (`some (some e)`). -/
structure World where
  listenResult : Except GoError Unit
  serveResult : Option (Option GoError)

/-- Server `main`, lines 140-157, as the trace of its effects and its ending. -/
def main (w : World) : List Effect × Ending :=
  match w.listenResult with
  | .error err => ([.listen "tcp" ":50051", .fatalf ("failed to listen: " ++ err.msg)], .exit 1)
  | .ok _lis =>
    let before : List Effect :=
      [.listen "tcp" ":50051", .newServer, .registerUserServiceServer,
        .println "gRPC server is running on port :50051...", .serve]
    match w.serveResult with
    | none => (before, .blocked)
    | some (some err) => (before ++ [.fatalf ("failed to serve: " ++ err.msg)], .exit 1)
    | some none => (before, .returned)

/-! ## `client.go` -/

/-- The request literal of the client's `main`, lines 187-192. -/
def clientRequest : CreateUserRequest :=
  { FirstName := "Jane"
    LastName := "Doe"
    Email := "janedoe@example.com"
    Password := "password123" }

/-! ## The wire format of the messages

Marshalling is done by the generated `user.pb.go` and the protobuf runtime, which are
not part of the repository. -/

/-- Modelled from the spec: the wire form of one field value, missing from the repository
with the generated `user.pb.go`. An `int32` travels as a 64-bit varint, a `string` as its
text, an embedded message as the sequence of its own fields; every value is carried
under a wire tag, "the small integer identifying a field's position in the binary
encoding of a message". -/
inductive WireValue where
  | varint (n : Nat)
  | str (s : String)
  | message (fields : List (Nat × WireValue))

/-- Modelled from the spec: an encoded message, the sequence of its fields, each a wire
tag with the value carried under it. -/
abbrev WireMessage : Type := List (Nat × WireValue)

/-- Modelled from the spec: the varint of an `int32`, its two's complement on 64 bits
(a negative value is sign-extended). -/
def varintOfInt32 (i : Int) : Nat := (i % 18446744073709551616).toNat

/-- Modelled from the spec: the `int32` read from a varint, its low 32 bits as a signed
number. -/
def int32OfVarint (n : Nat) : Int :=
  if n % 4294967296 < 2147483648 then ((n % 4294967296 : Nat) : Int)
  else ((n % 4294967296 : Nat) : Int) - 4294967296

/-- Modelled from the spec: what an `int32` field puts on the wire; the zero value is
not written. -/
def int32Field (i : Int) : Option WireValue :=
  if i = 0 then none else some (.varint (varintOfInt32 i))

/-- Modelled from the spec: what a `string` field puts on the wire; the empty string is
not written. -/
def stringField (s : String) : Option WireValue :=
  if s = "" then none else some (.str s)

/-- Modelled from the spec: encoding driven by the schema: the fields in declaration
order, each written value under the number the schema declares for it. -/
def encodeWith (decl : MessageDecl) (get : String → Option WireValue) : WireMessage :=
  decl.fields.filterMap (fun d => (get d.name).map (fun v => (d.number, v)))

/-- Modelled from the spec: decoding driven by the schema: starting from `init`, every
wire field is stored into the field the schema declares under its tag; a tag the schema
does not declare is skipped. -/
def decodeWith {M : Type} (decl : MessageDecl) (store : M → String → WireValue → M)
    (init : M) (w : WireMessage) : M :=
  w.foldl (fun m f =>
    match decl.fieldAt f.1 with
    | some d => store m d.name f.2
    | none => m) init

/-- Modelled from the spec: the value a `User` writes for the schema field `name`. -/
def User.wireValue (u : User) (name : String) : Option WireValue :=
  if name = "id" then int32Field u.Id
  else if name = "first_name" then stringField u.FirstName
  else if name = "last_name" then stringField u.LastName
  else if name = "email" then stringField u.Email
  else if name = "password" then stringField u.Password
  else if name = "phone" then stringField u.Phone
  else if name = "status" then stringField u.Status
  else if name = "role" then stringField u.Role
  else if name = "created_at" then stringField u.CreatedAt
  else if name = "updated_at" then stringField u.UpdatedAt
  else none

/-- Modelled from the spec: storing a decoded value into the `User` field called `name`;
a value of the wrong wire type is skipped. -/
def User.store (u : User) (name : String) (v : WireValue) : User :=
  match v with
  | .varint n => if name = "id" then { u with Id := int32OfVarint n } else u
  | .str s =>
    if name = "first_name" then { u with FirstName := s }
    else if name = "last_name" then { u with LastName := s }
    else if name = "email" then { u with Email := s }
    else if name = "password" then { u with Password := s }
    else if name = "phone" then { u with Phone := s }
    else if name = "status" then { u with Status := s }
    else if name = "role" then { u with Role := s }
    else if name = "created_at" then { u with CreatedAt := s }
    else if name = "updated_at" then { u with UpdatedAt := s }
    else u
  | .message _ => u

/-- Modelled from the spec: `proto.Marshal` of a `User`. -/
def User.encode (u : User) : WireMessage := encodeWith userDecl u.wireValue

/-- Modelled from the spec: `proto.Unmarshal` into a fresh `User`. -/
def User.decode (w : WireMessage) : User := decodeWith userDecl User.store {} w

/-- Modelled from the spec: the value a `CreateUserRequest` writes for the field `name`. -/
def CreateUserRequest.wireValue (r : CreateUserRequest) (name : String) : Option WireValue :=
  if name = "first_name" then stringField r.FirstName
  else if name = "last_name" then stringField r.LastName
  else if name = "email" then stringField r.Email
  else if name = "password" then stringField r.Password
  else none

/-- Modelled from the spec: storing a decoded value into a `CreateUserRequest`. -/
def CreateUserRequest.store (r : CreateUserRequest) (name : String) (v : WireValue) :
    CreateUserRequest :=
  match v with
  | .str s =>
    if name = "first_name" then { r with FirstName := s }
    else if name = "last_name" then { r with LastName := s }
    else if name = "email" then { r with Email := s }
    else if name = "password" then { r with Password := s }
    else r
  | _ => r

/-- Modelled from the spec: `proto.Marshal` of a `CreateUserRequest`. -/
def CreateUserRequest.encode (r : CreateUserRequest) : WireMessage :=
  encodeWith createUserRequestDecl r.wireValue

/-- Modelled from the spec: `proto.Unmarshal` into a fresh `CreateUserRequest`. -/
def CreateUserRequest.decode (w : WireMessage) : CreateUserRequest :=
  decodeWith createUserRequestDecl CreateUserRequest.store {} w

/-- Modelled from the spec: the value a `GetUserRequest` writes for the field `name`. -/
def GetUserRequest.wireValue (r : GetUserRequest) (name : String) : Option WireValue :=
  if name = "id" then int32Field r.Id else none

/-- Modelled from the spec: storing a decoded value into a `GetUserRequest`. -/
def GetUserRequest.store (r : GetUserRequest) (name : String) (v : WireValue) :
    GetUserRequest :=
  match v with
  | .varint n => if name = "id" then { r with Id := int32OfVarint n } else r
  | _ => r

/-- Modelled from the spec: `proto.Marshal` of a `GetUserRequest`. -/
def GetUserRequest.encode (r : GetUserRequest) : WireMessage :=
  encodeWith getUserRequestDecl r.wireValue

/-- Modelled from the spec: `proto.Unmarshal` into a fresh `GetUserRequest`. -/
def GetUserRequest.decode (w : WireMessage) : GetUserRequest :=
  decodeWith getUserRequestDecl GetUserRequest.store {} w

/-- Modelled from the spec: the value a message-typed field `user` writes: nothing for a
nil pointer, else the encoded `User` (written even when all its fields are zero). -/
def userField (p : Option User) (name : String) : Option WireValue :=
  if name = "user" then p.map (fun u => .message u.encode) else none

/-- Modelled from the spec: storing a decoded embedded `User`: its fields are merged into
the `User` already there, or into a fresh one. -/
def storeUserField (p : Option User) (name : String) (v : WireValue) : Option User :=
  match v with
  | .message fs =>
    if name = "user" then some (decodeWith userDecl User.store (p.getD {}) fs) else p
  | _ => p

/-- Modelled from the spec: `proto.Marshal` of a `CreateUserResponse`. -/
def CreateUserResponse.encode (r : CreateUserResponse) : WireMessage :=
  encodeWith createUserResponseDecl (userField r.User)

/-- Modelled from the spec: `proto.Unmarshal` into a fresh `CreateUserResponse`. -/
def CreateUserResponse.decode (w : WireMessage) : CreateUserResponse :=
  decodeWith createUserResponseDecl
    (fun (r : CreateUserResponse) name v => { r with User := storeUserField r.User name v }) {} w

/-- Modelled from the spec: `proto.Marshal` of a `GetUserResponse`. -/
def GetUserResponse.encode (r : GetUserResponse) : WireMessage :=
  encodeWith getUserResponseDecl (userField r.User)

/-- Modelled from the spec: `proto.Unmarshal` into a fresh `GetUserResponse`. -/
def GetUserResponse.decode (w : WireMessage) : GetUserResponse :=
  decodeWith getUserResponseDecl
    (fun (r : GetUserResponse) name v => { r with User := storeUserField r.User name v }) {} w

/-- The five message types of the schema. -/
inductive MessageKind where
  | user
  | createUserRequest
  | createUserResponse
  | getUserRequest
  | getUserResponse
deriving DecidableEq, Repr

/-- A message of any of the five types. -/
inductive Message where
  | user (m : User)
  | createUserRequest (m : CreateUserRequest)
  | createUserResponse (m : CreateUserResponse)
  | getUserRequest (m : GetUserRequest)
  | getUserResponse (m : GetUserResponse)
deriving DecidableEq, Repr

/-- Type of a message. -/
def Message.kind : Message → MessageKind
  | .user _ => .user
  | .createUserRequest _ => .createUserRequest
  | .createUserResponse _ => .createUserResponse
  | .getUserRequest _ => .getUserRequest
  | .getUserResponse _ => .getUserResponse

/-- Schema block of a message type. -/
def MessageKind.decl : MessageKind → MessageDecl
  | .user => userDecl
  | .createUserRequest => createUserRequestDecl
  | .createUserResponse => createUserResponseDecl
  | .getUserRequest => getUserRequestDecl
  | .getUserResponse => getUserResponseDecl

/-- Every `int32` field of the message, embedded ones included, is in the `int32` range:
what the Go type of the struct guarantees. -/
def Message.wellTyped : Message → Prop
  | .user m => isInt32 m.Id
  | .createUserRequest _ => True
  | .createUserResponse m => ∀ u, m.User = some u → isInt32 u.Id
  | .getUserRequest m => isInt32 m.Id
  | .getUserResponse m => ∀ u, m.User = some u → isInt32 u.Id

/-- Modelled from the spec: the value a message writes for the schema field `name`. -/
def Message.wireValue : Message → String → Option WireValue
  | .user m => m.wireValue
  | .createUserRequest m => m.wireValue
  | .createUserResponse m => userField m.User
  | .getUserRequest m => m.wireValue
  | .getUserResponse m => userField m.User

/-- Modelled from the spec: `proto.Marshal`. -/
def Message.encode : Message → WireMessage
  | .user m => m.encode
  | .createUserRequest m => m.encode
  | .createUserResponse m => m.encode
  | .getUserRequest m => m.encode
  | .getUserResponse m => m.encode

/-- Modelled from the spec: `proto.Unmarshal` into a fresh message of the given type. -/
def Message.decode : MessageKind → WireMessage → Message
  | .user, w => .user (User.decode w)
  | .createUserRequest, w => .createUserRequest (CreateUserRequest.decode w)
  | .createUserResponse, w => .createUserResponse (CreateUserResponse.decode w)
  | .getUserRequest, w => .getUserRequest (GetUserRequest.decode w)
  | .getUserResponse, w => .getUserResponse (GetUserResponse.decode w)


/-! ## The handlers

In both handlers the local `user` hides the package `user` at the `return` statement, so
the type of the returned literal does not resolve and neither handler returns anything. -/

theorem qualifiedType_user_in_handlerScope (reqType : String) :
    (handlerScope reqType).qualifiedType "user" "User" = some () := rfl

theorem qualifiedType_hidden (reqType T : String) :
    Scope.qualifiedType (("user", .variable "*user.User") :: handlerScope reqType) "user" T =
      none := rfl

theorem qualifiedType_without_hiding (reqType : String) :
    Scope.qualifiedType (("u", .variable "*user.User") :: handlerScope reqType) "user"
        "CreateUserResponse" = some () ∧
    Scope.qualifiedType (("u", .variable "*user.User") :: handlerScope reqType) "user"
        "GetUserResponse" = some () := ⟨rfl, rfl⟩

theorem createUser_eq_none (s : server) (ctx : Context) (req : Option CreateUserRequest) :
    s.CreateUser ctx req = none := rfl

theorem getUser_eq_none (s : server) (ctx : Context) (req : Option GetUserRequest) :
    s.GetUser ctx req = none := rfl

/-- C1 (the code departs from it): lines 109-119 of `CreateUser` build a `User` with the
request's first name, last name and email unchanged, yet the handler as written returns
nothing, for the request Ada Lovelace as for every other: at line 120 `user` is the local
variable, not the package. -/
theorem createUser_echo_is_not_returned :
    server.CreateUser {} {}
      (some { FirstName := " Ada ", LastName := "LOVELACE", Email := "" }) = none ∧
    (∀ (s : server) (ctx : Context) (req : Option CreateUserRequest),
      s.CreateUser ctx req = none) ∧
    (∀ req : CreateUserRequest,
      (server.CreateUser.user (some req)).FirstName = req.FirstName ∧
      (server.CreateUser.user (some req)).LastName = req.LastName ∧
      (server.CreateUser.user (some req)).Email = req.Email) :=
  ⟨rfl, fun _ _ _ => rfl, fun _ => ⟨rfl, rfl, rfl⟩⟩

/-- C2 (the code departs from it): lines 127-136 of `GetUser` build a `User` with the
requested id, yet the handler as written returns nothing, for the ids 0 and -7 as for every
other: at line 137 `user` is the local variable, not the package. -/
theorem getUser_id_is_not_returned :
    server.GetUser {} {} (some { Id := 0 }) = none ∧
    server.GetUser {} {} (some { Id := -7 }) = none ∧
    (∀ (s : server) (ctx : Context) (req : Option GetUserRequest),
      s.GetUser ctx req = none) ∧
    (∀ req : GetUserRequest, (server.GetUser.user (some req)).Id = req.Id) :=
  ⟨rfl, rfl, fun _ _ _ => rfl, fun _ => rfl⟩

/-- C3 (the code departs from it): neither handler returns a response with a nil error: for
the empty request, and for every request, there is no pair of response and error that
`CreateUser` or `GetUser` returns. -/
theorem handlers_return_no_pair :
    (¬ ∃ r, server.CreateUser {} {} (some {}) = some r) ∧
    (¬ ∃ r, server.GetUser {} {} (some {}) = some r) ∧
    (∀ (s : server) (ctx : Context) (req : Option CreateUserRequest),
      ¬ ∃ r, s.CreateUser ctx req = some r) ∧
    (∀ (s : server) (ctx : Context) (req : Option GetUserRequest),
      ¬ ∃ r, s.GetUser ctx req = some r) := by
  refine ⟨?_, ?_, ?_, ?_⟩
  · rintro ⟨r, hr⟩
    rw [createUser_eq_none] at hr
    cases hr
  · rintro ⟨r, hr⟩
    rw [getUser_eq_none] at hr
    cases hr
  · rintro s ctx req ⟨r, hr⟩
    rw [createUser_eq_none] at hr
    cases hr
  · rintro s ctx req ⟨r, hr⟩
    rw [getUser_eq_none] at hr
    cases hr

/-- C4 (the code departs from it): for the request literal of `client.go` (Jane Doe,
janedoe@example.com, password123) lines 109-119 build a `User` with those names and email,
status "active" and role "user", yet `CreateUser` as written returns nothing. -/
theorem createUser_jane_doe_is_not_returned :
    server.CreateUser {} {} (some clientRequest) = none ∧
    server.CreateUser.user (some clientRequest) =
      { Id := 1, FirstName := "Jane", LastName := "Doe", Email := "janedoe@example.com",
        Password := "password123", Phone := "", Status := "active", Role := "user",
        CreatedAt := "2024-12-01T12:00:00Z", UpdatedAt := "2024-12-01T12:00:00Z" } ∧
    (∀ req : Option CreateUserRequest,
      (server.CreateUser.user req).Status = "active" ∧
      (server.CreateUser.user req).Role = "user") :=
  ⟨rfl, rfl, fun _ => ⟨rfl, rfl⟩⟩

/-- C5 (the code departs from it): for the id 42 lines 127-136 build the placeholder
`User` John Doe with id 42, empty password and phone, yet `GetUser` as written returns
nothing. -/
theorem getUser_placeholder_is_not_returned :
    server.GetUser {} {} (some { Id := 42 }) = none ∧
    (∀ req : GetUserRequest,
      server.GetUser.user (some req) =
        { Id := req.Id, FirstName := "John", LastName := "Doe",
          Email := "johndoe@example.com", Password := "", Phone := "", Status := "active",
          Role := "user", CreatedAt := "2024-12-01T12:00:00Z",
          UpdatedAt := "2024-12-01T12:00:00Z" }) :=
  ⟨rfl, fun _ => rfl⟩

/-- C9 (the code departs from it): lines 109-119 put the request's password into the
`User`, with id 1, an empty phone and the fixed timestamps, yet two requests that differ
only in their password get the same answer from `CreateUser` as written: nothing. -/
theorem createUser_password_is_not_returned :
    server.CreateUser {} {} (some { clientRequest with Password := "password123" }) =
      server.CreateUser {} {} (some { clientRequest with Password := "hunter2" }) ∧
    server.CreateUser {} {} (some { clientRequest with Password := "hunter2" }) = none ∧
    (∀ req : CreateUserRequest,
      (server.CreateUser.user (some req)).Password = req.Password ∧
      (server.CreateUser.user (some req)).Id = 1 ∧
      (server.CreateUser.user (some req)).Phone = "" ∧
      (server.CreateUser.user (some req)).CreatedAt = "2024-12-01T12:00:00Z" ∧
      (server.CreateUser.user (some req)).UpdatedAt = "2024-12-01T12:00:00Z") :=
  ⟨rfl, rfl, fun _ => ⟨rfl, rfl, rfl, rfl, rfl⟩⟩

/-- C10 (the code departs from it): for the request John Doe, johndoe@example.com, empty
password, the literals of the two handlers coincide, yet `CreateUser` as written returns no
user whose id could be fetched, and `GetUser` as written returns nothing for the id 1. -/
theorem getUser_after_createUser_returns_nothing :
    server.CreateUser {} {}
      (some { FirstName := "John", LastName := "Doe", Email := "johndoe@example.com",
              Password := "" }) = none ∧
    server.GetUser {} {} (some { Id := 1 }) = none ∧
    server.GetUser.user (some { Id := 1 }) =
      server.CreateUser.user
        (some { FirstName := "John", LastName := "Doe", Email := "johndoe@example.com",
                Password := "" }) ∧
    server.GetUser.user (some { Id := 1 }) ≠ server.CreateUser.user (some clientRequest) :=
  ⟨rfl, rfl, rfl, by decide⟩

/-! ## The schema -/

/-- C6: the fields of `User` are numbered id=1, first_name=2, last_name=3, email=4,
password=5, phone=6, status=7, role=8, created_at=9, updated_at=10; the numbers are pairwise
distinct and are exactly the numbers 1 to 10; and in each of the five messages of the schema
no number is used twice. -/
theorem schema_field_numbers :
    userDecl.fields.map (fun d => (d.name, d.number)) =
      [("id", 1), ("first_name", 2), ("last_name", 3), ("email", 4), ("password", 5),
        ("phone", 6), ("status", 7), ("role", 8), ("created_at", 9), ("updated_at", 10)] ∧
    userDecl.numbers.Nodup ∧
    (∀ n : Nat, n ∈ userDecl.numbers ↔ 1 ≤ n ∧ n ≤ 10) ∧
    userDecl.numbers.length = 10 ∧
    schemaMessages.map (fun m => m.name) =
      ["User", "CreateUserRequest", "CreateUserResponse", "GetUserRequest",
        "GetUserResponse"] ∧
    (∀ m ∈ schemaMessages, m.numbers.Nodup) := by
  refine ⟨rfl, by decide, ?_, rfl, rfl, by decide⟩
  intro n
  simp only [MessageDecl.numbers, userDecl, List.map_cons, List.map_nil, List.mem_cons,
    List.mem_singleton, List.not_mem_nil, or_false]
  omega

/-! ## The server's `main` -/

/-- C8: a failure is fatal at either startup step of the server's `main`. If the listen on
`:50051` fails, the process exits with status 1 after the failed listen alone: no gRPC
server is created, registered or served. If the listen succeeds and `Serve` returns an
error, the process exits with status 1, `Fatalf` being its last effect. In every run the
listen comes first, and the service is registered, and served after that, only when the
listen succeeded. -/
theorem main_fatal_on_failure :
    (∀ (err : GoError) (serve : Option (Option GoError)),
      (main ⟨.error err, serve⟩).2 = .exit 1 ∧
      (main ⟨.error err, serve⟩).1 =
        [.listen "tcp" ":50051", .fatalf ("failed to listen: " ++ err.msg)] ∧
      Effect.newServer ∉ (main ⟨.error err, serve⟩).1 ∧
      Effect.registerUserServiceServer ∉ (main ⟨.error err, serve⟩).1 ∧
      Effect.serve ∉ (main ⟨.error err, serve⟩).1) ∧
    (∀ err : GoError,
      (main ⟨.ok (), some (some err)⟩).2 = .exit 1 ∧
      (main ⟨.ok (), some (some err)⟩).1.getLast? =
        some (.fatalf ("failed to serve: " ++ err.msg))) ∧
    (∀ w : World,
      (main w).1.head? = some (.listen "tcp" ":50051") ∧
      ((Effect.registerUserServiceServer ∈ (main w).1 ∨ Effect.serve ∈ (main w).1) →
        w.listenResult = .ok () ∧
        ∃ rest, (main w).1 =
          [.listen "tcp" ":50051", .newServer, .registerUserServiceServer,
            .println "gRPC server is running on port :50051...", .serve] ++ rest)) := by
  refine ⟨?_, ?_, ?_⟩
  · intro err serve
    refine ⟨rfl, rfl, ?_, ?_, ?_⟩ <;> simp [main]
  · intro err
    exact ⟨rfl, by simp [main]⟩
  · rintro ⟨l, sv⟩
    cases l with
    | error e => simp [main]
    | ok u =>
      cases u
      rcases sv with _ | _ | e <;> simp [main]

/-- Witness of C8: a run whose listen succeeds and whose `Serve` fails registers the
service, so its listen succeeded and the five startup effects precede the rest. -/
theorem main_fatal_on_failure_witness :
    (Effect.registerUserServiceServer ∈ (main ⟨.ok (), some (some ⟨"closed"⟩)⟩).1 ∨
      Effect.serve ∈ (main ⟨.ok (), some (some ⟨"closed"⟩)⟩).1) ∧
    (World.listenResult ⟨.ok (), some (some ⟨"closed"⟩)⟩ = .ok () ∧
      ∃ rest, (main ⟨.ok (), some (some ⟨"closed"⟩)⟩).1 =
        [.listen "tcp" ":50051", .newServer, .registerUserServiceServer,
          .println "gRPC server is running on port :50051...", .serve] ++ rest) :=
  ⟨Or.inl (by decide),
    (main_fatal_on_failure.2.2 ⟨.ok (), some (some ⟨"closed"⟩)⟩).2 (Or.inl (by decide))⟩

/-! ## The wire format -/

theorem int32OfVarint_varintOfInt32 (i : Int) (h : isInt32 i) :
    int32OfVarint (varintOfInt32 i) = i := by
  unfold isInt32 at h
  unfold int32OfVarint varintOfInt32
  split_ifs <;> omega

theorem decodeWith_nil {M : Type} (decl : MessageDecl) (store : M → String → WireValue → M)
    (init : M) : decodeWith decl store init [] = init := rfl

theorem decodeWith_filterMap_cons {M : Type} (decl : MessageDecl)
    (store : M → String → WireValue → M) (get : String → Option WireValue) (init : M)
    (d : FieldDecl) (ds : List FieldDecl) :
    decodeWith decl store init
        ((d :: ds).filterMap (fun d => (get d.name).map (fun v => (d.number, v)))) =
      decodeWith decl store
        (match get d.name with
          | some v =>
            (match decl.fieldAt d.number with
              | some e => store init e.name v
              | none => init)
          | none => init)
        (ds.filterMap (fun d => (get d.name).map (fun v => (d.number, v)))) := by
  cases h : get d.name <;> simp [decodeWith, List.filterMap_cons, h]

theorem absorb_string {M : Type} (store : M → String → WireValue → M) (m : M)
    (name s : String) (h : s = "" → store m name (.str s) = m) :
    (match stringField s with
      | some v => store m name v
      | none => m) = store m name (.str s) := by
  unfold stringField
  split_ifs with hs
  · exact (h hs).symm
  · rfl

theorem absorb_int32 {M : Type} (store : M → String → WireValue → M) (m : M)
    (name : String) (i : Int) (h : i = 0 → store m name (.varint (varintOfInt32 i)) = m) :
    (match int32Field i with
      | some v => store m name v
      | none => m) = store m name (.varint (varintOfInt32 i)) := by
  unfold int32Field
  split_ifs with hs
  · exact (h hs).symm
  · rfl


theorem userDecl_fields : userDecl.fields =
    [ ⟨.int32, "id", 1⟩, ⟨.string, "first_name", 2⟩, ⟨.string, "last_name", 3⟩,
      ⟨.string, "email", 4⟩, ⟨.string, "password", 5⟩, ⟨.string, "phone", 6⟩,
      ⟨.string, "status", 7⟩, ⟨.string, "role", 8⟩, ⟨.string, "created_at", 9⟩,
      ⟨.string, "updated_at", 10⟩ ] := rfl

theorem user_decode_encode (u : User) (h : isInt32 u.Id) : User.decode (User.encode u) = u := by
  obtain ⟨id, fn, ln, em, pw, ph, st, ro, ca, ua⟩ := u
  have hid : int32OfVarint (varintOfInt32 id) = id := int32OfVarint_varintOfInt32 id h
  have a1 : userDecl.fieldAt 1 = some ⟨.int32, "id", 1⟩ := rfl
  have a2 : userDecl.fieldAt 2 = some ⟨.string, "first_name", 2⟩ := rfl
  have a3 : userDecl.fieldAt 3 = some ⟨.string, "last_name", 3⟩ := rfl
  have a4 : userDecl.fieldAt 4 = some ⟨.string, "email", 4⟩ := rfl
  have a5 : userDecl.fieldAt 5 = some ⟨.string, "password", 5⟩ := rfl
  have a6 : userDecl.fieldAt 6 = some ⟨.string, "phone", 6⟩ := rfl
  have a7 : userDecl.fieldAt 7 = some ⟨.string, "status", 7⟩ := rfl
  have a8 : userDecl.fieldAt 8 = some ⟨.string, "role", 8⟩ := rfl
  have a9 : userDecl.fieldAt 9 = some ⟨.string, "created_at", 9⟩ := rfl
  have a10 : userDecl.fieldAt 10 = some ⟨.string, "updated_at", 10⟩ := rfl
  have w1 : ∀ v : User, v.wireValue "id" = int32Field v.Id := fun _ => rfl
  have w2 : ∀ v : User, v.wireValue "first_name" = stringField v.FirstName := fun _ => rfl
  have w3 : ∀ v : User, v.wireValue "last_name" = stringField v.LastName := fun _ => rfl
  have w4 : ∀ v : User, v.wireValue "email" = stringField v.Email := fun _ => rfl
  have w5 : ∀ v : User, v.wireValue "password" = stringField v.Password := fun _ => rfl
  have w6 : ∀ v : User, v.wireValue "phone" = stringField v.Phone := fun _ => rfl
  have w7 : ∀ v : User, v.wireValue "status" = stringField v.Status := fun _ => rfl
  have w8 : ∀ v : User, v.wireValue "role" = stringField v.Role := fun _ => rfl
  have w9 : ∀ v : User, v.wireValue "created_at" = stringField v.CreatedAt := fun _ => rfl
  have w10 : ∀ v : User, v.wireValue "updated_at" = stringField v.UpdatedAt := fun _ => rfl
  unfold User.decode User.encode encodeWith
  rw [userDecl_fields]
  rw [decodeWith_filterMap_cons]; simp only [w1, a1]
  rw [absorb_int32 User.store _ _ id (by intro h0; subst h0; rfl)]
  rw [decodeWith_filterMap_cons]; simp only [w2, a2]
  rw [absorb_string User.store _ _ fn (by intro h0; subst h0; rfl)]
  rw [decodeWith_filterMap_cons]; simp only [w3, a3]
  rw [absorb_string User.store _ _ ln (by intro h0; subst h0; rfl)]
  rw [decodeWith_filterMap_cons]; simp only [w4, a4]
  rw [absorb_string User.store _ _ em (by intro h0; subst h0; rfl)]
  rw [decodeWith_filterMap_cons]; simp only [w5, a5]
  rw [absorb_string User.store _ _ pw (by intro h0; subst h0; rfl)]
  rw [decodeWith_filterMap_cons]; simp only [w6, a6]
  rw [absorb_string User.store _ _ ph (by intro h0; subst h0; rfl)]
  rw [decodeWith_filterMap_cons]; simp only [w7, a7]
  rw [absorb_string User.store _ _ st (by intro h0; subst h0; rfl)]
  rw [decodeWith_filterMap_cons]; simp only [w8, a8]
  rw [absorb_string User.store _ _ ro (by intro h0; subst h0; rfl)]
  rw [decodeWith_filterMap_cons]; simp only [w9, a9]
  rw [absorb_string User.store _ _ ca (by intro h0; subst h0; rfl)]
  rw [decodeWith_filterMap_cons]; simp only [w10, a10]
  rw [absorb_string User.store _ _ ua (by intro h0; subst h0; rfl)]
  rw [List.filterMap_nil, decodeWith_nil]
  exact (rfl : _ = User.mk (int32OfVarint (varintOfInt32 id)) fn ln em pw ph st ro ca ua).trans
    (by rw [hid])

theorem createUserRequest_decode_encode (r : CreateUserRequest) :
    CreateUserRequest.decode (CreateUserRequest.encode r) = r := by
  obtain ⟨fn, ln, em, pw⟩ := r
  have hf : createUserRequestDecl.fields =
      [ ⟨.string, "first_name", 1⟩, ⟨.string, "last_name", 2⟩, ⟨.string, "email", 3⟩,
        ⟨.string, "password", 4⟩ ] := rfl
  have a1 : createUserRequestDecl.fieldAt 1 = some ⟨.string, "first_name", 1⟩ := rfl
  have a2 : createUserRequestDecl.fieldAt 2 = some ⟨.string, "last_name", 2⟩ := rfl
  have a3 : createUserRequestDecl.fieldAt 3 = some ⟨.string, "email", 3⟩ := rfl
  have a4 : createUserRequestDecl.fieldAt 4 = some ⟨.string, "password", 4⟩ := rfl
  have w1 : ∀ v : CreateUserRequest, v.wireValue "first_name" = stringField v.FirstName :=
    fun _ => rfl
  have w2 : ∀ v : CreateUserRequest, v.wireValue "last_name" = stringField v.LastName :=
    fun _ => rfl
  have w3 : ∀ v : CreateUserRequest, v.wireValue "email" = stringField v.Email :=
    fun _ => rfl
  have w4 : ∀ v : CreateUserRequest, v.wireValue "password" = stringField v.Password :=
    fun _ => rfl
  unfold CreateUserRequest.decode CreateUserRequest.encode encodeWith
  rw [hf]
  rw [decodeWith_filterMap_cons]; simp only [w1, a1]
  rw [absorb_string CreateUserRequest.store _ _ fn (by intro h0; subst h0; rfl)]
  rw [decodeWith_filterMap_cons]; simp only [w2, a2]
  rw [absorb_string CreateUserRequest.store _ _ ln (by intro h0; subst h0; rfl)]
  rw [decodeWith_filterMap_cons]; simp only [w3, a3]
  rw [absorb_string CreateUserRequest.store _ _ em (by intro h0; subst h0; rfl)]
  rw [decodeWith_filterMap_cons]; simp only [w4, a4]
  rw [absorb_string CreateUserRequest.store _ _ pw (by intro h0; subst h0; rfl)]
  rw [List.filterMap_nil, decodeWith_nil]
  rfl

theorem getUserRequest_decode_encode (r : GetUserRequest) (h : isInt32 r.Id) :
    GetUserRequest.decode (GetUserRequest.encode r) = r := by
  obtain ⟨id⟩ := r
  have hid : int32OfVarint (varintOfInt32 id) = id := int32OfVarint_varintOfInt32 id h
  have hf : getUserRequestDecl.fields = [ ⟨.int32, "id", 1⟩ ] := rfl
  have a1 : getUserRequestDecl.fieldAt 1 = some ⟨.int32, "id", 1⟩ := rfl
  have w1 : ∀ v : GetUserRequest, v.wireValue "id" = int32Field v.Id := fun _ => rfl
  unfold GetUserRequest.decode GetUserRequest.encode encodeWith
  rw [hf]
  rw [decodeWith_filterMap_cons]; simp only [w1, a1]
  rw [absorb_int32 GetUserRequest.store _ _ id (by intro h0; subst h0; rfl)]
  rw [List.filterMap_nil, decodeWith_nil]
  exact (rfl : _ = GetUserRequest.mk (int32OfVarint (varintOfInt32 id))).trans (by rw [hid])

theorem createUserResponse_decode_encode (r : CreateUserResponse)
    (h : ∀ u, r.User = some u → isInt32 u.Id) :
    CreateUserResponse.decode (CreateUserResponse.encode r) = r := by
  obtain ⟨p⟩ := r
  cases p with
  | none => rfl
  | some u =>
    have hu : User.decode (User.encode u) = u := user_decode_encode u (h u rfl)
    have hs : CreateUserResponse.decode (CreateUserResponse.encode ⟨some u⟩) =
        ⟨some (User.decode (User.encode u))⟩ := rfl
    rw [hs, hu]

theorem getUserResponse_decode_encode (r : GetUserResponse)
    (h : ∀ u, r.User = some u → isInt32 u.Id) :
    GetUserResponse.decode (GetUserResponse.encode r) = r := by
  obtain ⟨p⟩ := r
  cases p with
  | none => rfl
  | some u =>
    have hu : User.decode (User.encode u) = u := user_decode_encode u (h u rfl)
    have hs : GetUserResponse.decode (GetUserResponse.encode ⟨some u⟩) =
        ⟨some (User.decode (User.encode u))⟩ := rfl
    rw [hs, hu]

theorem mem_encodeWith (decl : MessageDecl) (get : String → Option WireValue)
    (f : Nat × WireValue) (hf : f ∈ encodeWith decl get) :
    ∃ d ∈ decl.fields, d.number = f.1 ∧ get d.name = some f.2 := by
  unfold encodeWith at hf
  rw [List.mem_filterMap] at hf
  obtain ⟨d, hd, hv⟩ := hf
  refine ⟨d, hd, ?_⟩
  cases hg : get d.name with
  | none => rw [hg] at hv; cases hv
  | some v =>
    rw [hg] at hv
    cases hv
    exact ⟨rfl, rfl⟩

theorem message_encode_eq (m : Message) : m.encode = encodeWith m.kind.decl m.wireValue := by
  cases m <;> rfl

theorem message_decode_encode (m : Message) (h : m.wellTyped) :
    Message.decode m.kind m.encode = m := by
  cases m with
  | user u => exact congrArg Message.user (user_decode_encode u h)
  | createUserRequest r =>
    exact congrArg Message.createUserRequest (createUserRequest_decode_encode r)
  | createUserResponse r =>
    exact congrArg Message.createUserResponse (createUserResponse_decode_encode r h)
  | getUserRequest r => exact congrArg Message.getUserRequest (getUserRequest_decode_encode r h)
  | getUserResponse r =>
    exact congrArg Message.getUserResponse (getUserResponse_decode_encode r h)

/-- C7: for each of the five message types, encoding a message and decoding the result
as that type gives the message back, and every field on the wire sits under the number the
schema declares for the field whose value it carries, the same field the decoded message
holds that value in. -/
theorem wire_roundtrip (m : Message) (h : m.wellTyped) :
    Message.decode m.kind m.encode = m ∧
    ∀ f ∈ m.encode, ∃ d ∈ m.kind.decl.fields, d.number = f.1 ∧
      m.wireValue d.name = some f.2 ∧
      (Message.decode m.kind m.encode).wireValue d.name = some f.2 := by
  have hr := message_decode_encode m h
  refine ⟨hr, ?_⟩
  intro f hf
  rw [message_encode_eq] at hf
  obtain ⟨d, hd, hn, hv⟩ := mem_encodeWith _ _ f hf
  exact ⟨d, hd, hn, hv, by rw [hr]; exact hv⟩

/-- Witness of C7: a `GetUserResponse` whose user has a negative id. -/
theorem wire_roundtrip_witness :
    (Message.getUserResponse { User := some { Id := -42, FirstName := "John" } }).wellTyped ∧
    (Message.decode .getUserResponse
        (Message.getUserResponse { User := some { Id := -42, FirstName := "John" } }).encode =
      Message.getUserResponse { User := some { Id := -42, FirstName := "John" } }) :=
  ⟨by intro u hu; cases hu; decide,
    (wire_roundtrip (.getUserResponse { User := some { Id := -42, FirstName := "John" } })
      (by intro u hu; cases hu; decide)).1⟩

end GoNote
